import Mathlib

/-!
Shallow embedding of the `tos-mcp-server` repository: the storage-client
adapter (`tos_resource.py`) and the protocol-server handlers (`server.py`),
together with theorems settling the specification's claims about them.

Python strings are modelled as Lean `String`s, byte strings as `List Nat`
(each entry a byte value), Python exceptions as explicit `Except` error
values, and the storage SDK (an external collaborator) as oracle values
describing what its calls return.
-/

namespace TosMcp

/-! ## Python string primitives used by the source -/

/-- Python `str.lower()` restricted to ASCII case mapping (every extension
the source compares against is pure ASCII). -/
def pyLower (s : String) : String :=
  String.mk (s.data.map Char.toLower)

/-- Python `str.endswith(suffix)`. -/
def pyEndsWith (s suffix : String) : Bool :=
  suffix.data.isSuffixOf s.data

/-- Python `str.startswith(pre)`. -/
def pyStartsWith (s pre : String) : Bool :=
  pre.data.isPrefixOf s.data

/-- Python slicing `s[n:]`. -/
def pyDrop (s : String) (n : Nat) : String :=
  String.mk (s.data.drop n)

/-- The single-quote character, written by code point to keep string
literals quote-free. -/
def squote : String :=
  String.singleton (Char.ofNat 39)

/-- Python `repr` of a simple string (one containing neither quotes nor
escape-worthy characters): the string wrapped in single quotes. -/
def pyReprStr (s : String) : String :=
  squote ++ s ++ squote

/-- Python `str` of a list of simple strings, as produced by
`str([b.name for b in result.buckets])` in `call_tool`. -/
def pyStrList (xs : List String) : String :=
  "[" ++ String.intercalate ", " (xs.map pyReprStr) ++ "]"

/-- Python `str` of a `bytes` value all of whose bytes are printable ASCII
without quotes or backslashes (true of every base64 output): the literal
`b?...?` form with single quotes. -/
def pyBytesRepr (s : String) : String :=
  "b" ++ squote ++ s ++ squote

/-- Core of Python `s.split(sep, 1)` for `sep = "/"`: splits at the first
slash, `none` when the string holds no slash (in which case the 2-element
unpacking in the source raises `ValueError`). -/
def splitOnceAux : List Char → Option (List Char × List Char)
  | [] => none
  | c :: rest =>
    if c = '/' then some ([], rest)
    else
      match splitOnceAux rest with
      | none => none
      | some p => some (c :: p.1, p.2)

/-- Python `path.split("/", 1)` restricted to the shapes the source uses:
`some (bucket, key)` on a successful 2-way split, `none` when the unpacking
`bucket, key = path.split("/", 1)` would raise `ValueError`. -/
def pySplitOnce (s : String) : Option (String × String) :=
  match splitOnceAux s.data with
  | none => none
  | some p => some (String.mk p.1, String.mk p.2)

/-! ## Base64 (Python `base64.b64encode`) -/

/-- The standard base64 alphabet. -/
def b64Alphabet : List Char :=
  "ABCDEFGHIJKLMNOPQRSTUVWXYZabcdefghijklmnopqrstuvwxyz0123456789+/".data

/-- The base64 digit for a 6-bit value. -/
def b64Char (n : Nat) : Char :=
  b64Alphabet.getD n 'A'

/-- Standard base64 encoding of a byte sequence, with `=` padding, as
performed by Python `base64.b64encode`. -/
def b64Encode : List Nat → List Char
  | [] => []
  | [a] => [b64Char (a / 4), b64Char (a % 4 * 16), '=', '=']
  | [a, b] => [b64Char (a / 4), b64Char (a % 4 * 16 + b / 16), b64Char (b % 16 * 4), '=']
  | a :: b :: c :: rest =>
    b64Char (a / 4) :: b64Char (a % 4 * 16 + b / 16) ::
      b64Char (b % 16 * 4 + c / 64) :: b64Char (c % 64) :: b64Encode rest

/-- Base64 encoding of bytes as a Lean string; models
`base64.b64encode(content).decode('utf-8')`. -/
def b64String (bytes : List Nat) : String :=
  String.mk (b64Encode bytes)

/-! ## Strict UTF-8 decoding (Python `bytes.decode('utf-8')`) -/

/-- A UTF-8 continuation byte. -/
def isCont (c : Nat) : Bool :=
  128 ≤ c && c ≤ 191

/-- Strict UTF-8 decoding of a byte sequence: `some` of the decoded
characters exactly when the bytes are well-formed UTF-8 (no overlong forms,
no surrogates, no code points above U+10FFFF), `none` where Python
`bytes.decode('utf-8')` raises `UnicodeDecodeError`. -/
def utf8Decode : List Nat → Option (List Char)
  | [] => some []
  | b :: rest =>
    if b ≤ 127 then
      (utf8Decode rest).map (fun cs => Char.ofNat b :: cs)
    else if 194 ≤ b ∧ b ≤ 223 then
      match rest with
      | c :: rest2 =>
        if isCont c then
          (utf8Decode rest2).map (fun cs => Char.ofNat ((b - 192) * 64 + (c - 128)) :: cs)
        else none
      | [] => none
    else if 224 ≤ b ∧ b ≤ 239 then
      match rest with
      | c :: d :: rest2 =>
        if isCont c = true ∧ isCont d = true ∧ (b = 224 → 160 ≤ c) ∧ (b = 237 → c ≤ 159) then
          (utf8Decode rest2).map (fun cs =>
            Char.ofNat ((b - 224) * 4096 + (c - 128) * 64 + (d - 128)) :: cs)
        else none
      | _ => none
    else if 240 ≤ b ∧ b ≤ 244 then
      match rest with
      | c :: d :: e :: rest2 =>
        if isCont c = true ∧ isCont d = true ∧ isCont e = true
            ∧ (b = 240 → 144 ≤ c) ∧ (b = 244 → c ≤ 143) then
          (utf8Decode rest2).map (fun cs =>
            Char.ofNat ((b - 240) * 262144 + (c - 128) * 4096 + (d - 128) * 64 + (e - 128)) :: cs)
        else none
      | _ => none
    else none

/-! ## Data model -/

/-- A bucket as listed by the storage backend (`tos.models2.ListedBucket`):
only its name is consulted by this repository. -/
structure ListedBucket where
  name : String
deriving Repr, DecidableEq

/-- An object as listed by the storage backend
(`tos.models2.ListedObject`): only its key is consulted. -/
structure ListedObject where
  key : String
deriving Repr, DecidableEq

/-- The storage SDK's server-side error (`tos.exceptions.TosServerError`),
with the two fields the source reads. -/
structure TosServerError where
  status_code : Nat
  message : String
deriving Repr, DecidableEq

/-- A Python exception as observed by the adapter layer: either a
`ValueError` carrying its message, or a re-raised `TosServerError`. -/
inductive PyError where
  | valueError (msg : String)
  | tosServerError (e : TosServerError)
deriving Repr, DecidableEq

/-- A Python exception as observed by `call_tool`, reduced to `str(e)`,
which is all its handler uses. -/
structure PyException where
  msg : String
deriving Repr, DecidableEq

/-- The body object of the SDK's get-object response, with the two members
the adapter accesses: `.data` (async-iterated byte chunks) and `.items()`
(key/value pairs, modelled as an association list). -/
structure SdkObjectContent where
  data : List (List Nat)
  items : List (String × String)
deriving Repr, DecidableEq

/-- The SDK's get-object response as accessed by
`TosResource.get_object`. -/
structure SdkGetObjectResponse where
  content_type : String
  content : SdkObjectContent
deriving Repr, DecidableEq

/-- The dictionary returned by `TosResource.get_object` on success. -/
structure AdapterObject where
  content_type : String
  content : List Nat
  metadata : List (String × String)
deriving Repr, DecidableEq

/-- An MCP `Resource` as constructed by `list_resources`, with the three
fields the source sets. -/
structure Resource where
  uri : String
  name : String
  mimeType : String
deriving Repr, DecidableEq

/-- An MCP `TextContent` payload. The source's exception handler constructs
it without an explicit `type` argument; the embedding gives the field its
literal default `"text"`. -/
structure TextContent where
  type : String := "text"
  text : String
deriving Repr, DecidableEq

/-! ## Storage client adapter (`tos_resource.py`) -/

/-- The fixed set of text-like extensions of `TosResource.is_text_file`. -/
def text_exts : List String :=
  [".txt", ".log", ".csv", ".json", ".xml", ".md"]

/-- `TosResource.is_text_file`: true iff the lowercased key ends with one
of the extensions in `text_exts`. -/
def is_text_file (key : String) : Bool :=
  text_exts.any (fun ext => pyEndsWith (pyLower key) ext)

/-- `TosResource.list_buckets`: passes the backend's bucket-listing result
through, filtering it against the configured allow-list when that list is
non-empty (Python `if self.configured_buckets:`); a `TosServerError` from
the backend is logged and re-raised unchanged. -/
def TosResource.list_buckets (configured : List String)
    (backend : Except TosServerError (List ListedBucket)) :
    Except TosServerError (List ListedBucket) :=
  match backend with
  | .ok response =>
    if configured.isEmpty then .ok response
    else .ok (response.filter (fun b => configured.contains b.name))
  | .error e => .error e

/-- `TosResource.get_object bucket key resp`: on backend success,
concatenates the streamed chunks into the content bytes and lowercases the
metadata keys; on a backend `TosServerError` with status 404 raises
`ValueError("Object {key} not found in {bucket}")`, and re-raises any other
`TosServerError` unchanged. `resp` is the backend's response to
`client.get_object(bucket, key)`. -/
def TosResource.get_object (bucket key : String)
    (resp : Except TosServerError SdkGetObjectResponse) :
    Except PyError AdapterObject :=
  match resp with
  | .ok r =>
    .ok { content_type := r.content_type
          content := r.content.data.flatten
          metadata := r.content.items.map (fun kv => (pyLower kv.1, kv.2)) }
  | .error e =>
    if e.status_code = 404 then
      .error (.valueError ("Object " ++ key ++ " not found in " ++ bucket))
    else
      .error (.tosServerError e)

/-! ## Protocol server (`server.py`) -/

/-- The body of `process_bucket` inside `list_resources`: lists the
bucket's objects through the adapter and builds one `Resource` per object,
with the advisory MIME classification from `is_text_file`. `bo` is the
backend's object-listing behaviour per bucket name. -/
def processBucket (bo : String → Except TosServerError (List ListedObject))
    (b : ListedBucket) : Except TosServerError (List Resource) :=
  match bo b.name with
  | .error e => .error e
  | .ok objs =>
    .ok (objs.map (fun o =>
      { uri := "tos://" ++ b.name ++ "/" ++ o.key
        name := o.key
        mimeType := if is_text_file o.key then "text/plain" else "application/octet-stream" }))

/-- The `asyncio.gather` over `process_bucket` tasks in `list_resources`:
all per-bucket results are combined, and a failure in any single bucket's
listing fails the whole gather (default `return_exceptions=False`). The
accumulation order across buckets is scheduler-dependent in the source;
the embedding fixes bucket order, which the settled claims do not depend
on. -/
def gatherResources (bo : String → Except TosServerError (List ListedObject)) :
    List ListedBucket → Except TosServerError (List Resource)
  | [] => .ok []
  | b :: rest =>
    match processBucket bo b with
    | .error e => .error e
    | .ok rs =>
      match gatherResources bo rest with
      | .error e => .error e
      | .ok more => .ok (rs ++ more)

/-- The `list_resources` handler: enumerates buckets through the adapter
(hence through the allow-list filter), fans out per-bucket object listings,
and logs and re-raises any exception (`except Exception: ... raise`), so a
failure yields an error and no resource list. -/
def list_resources (configured : List String)
    (bb : Except TosServerError (List ListedBucket))
    (bo : String → Except TosServerError (List ListedObject)) :
    Except TosServerError (List Resource) :=
  match TosResource.list_buckets configured bb with
  | .error e => .error e
  | .ok buckets => gatherResources bo buckets

/-- The `read_resource` handler. Returns the handler's result together
with the trace of `(bucket, key)` get-object calls issued to the adapter,
so that "no backend call" is expressible. `backend` gives the SDK's
response to `client.get_object(bucket, key)`. Mirrors the source: prefix
check, 2-way split on the first slash, adapter fetch, then a base64 string
on the text branch and `str()` of the base64 bytes on the binary branch
(the constructed `ReadResourceResult` on the binary branch is only logged,
never returned); `ValueError`s and other exceptions are logged and
re-raised. -/
def read_resource (backend : String → String → Except TosServerError SdkGetObjectResponse)
    (uri : String) : Except PyError String × List (String × String) :=
  if pyStartsWith uri "tos://" = false then
    (.error (.valueError "Invalid TOS URI format"), [])
  else
    let path := pyDrop uri 6
    match pySplitOnce path with
    | none =>
      (.error (.valueError "not enough values to unpack (expected 2, got 1)"), [])
    | some (bucket, key) =>
      match TosResource.get_object bucket key (backend bucket key) with
      | .error e => (.error e, [(bucket, key)])
      | .ok response =>
        if is_text_file key then
          (.ok (b64String response.content), [(bucket, key)])
        else
          (.ok (pyBytesRepr (b64String response.content)), [(bucket, key)])

/-- The behaviour of the raw SDK client for one `call_tool` invocation:
what each of the three client calls the handler can make would return for
the given arguments. `getObjectBody` is the fully read body
`content.content.read()`. -/
structure ClientBehavior where
  listBucketsResult : Except PyException (List ListedBucket)
  listObjectsRepr : Except PyException String
  getObjectBody : Except PyException (List Nat)
deriving Repr

/-- Message of the `UnicodeDecodeError` raised by `bytes.decode('utf-8')`
on malformed input; the exact wording is position-dependent in Python and
is abstracted here (only its occurrence after `"Error: "` matters to the
handlers). -/
def unicodeDecodeErrorMsg : String :=
  "utf-8 codec cannot decode bytes"

/-- The `try:` body of `call_tool`: sequential dispatch on the tool name
(Python `match` over string literals), raising `ValueError("Unsupported
operation")` for unknown names. Failures are the exceptions the branch can
raise: a failed client call, or the `UnicodeDecodeError` from decoding the
fetched body. -/
def call_tool_body (client : ClientBehavior) (name : String) :
    Except PyException (List TextContent) :=
  if name = "ListBuckets" then
    match client.listBucketsResult with
    | .ok result => .ok [{ type := "text", text := pyStrList (result.map ListedBucket.name) }]
    | .error e => .error e
  else if name = "ListObjectsV2" then
    match client.listObjectsRepr with
    | .ok objects => .ok [{ type := "text", text := objects }]
    | .error e => .error e
  else if name = "GetObject" then
    match client.getObjectBody with
    | .ok body =>
      match utf8Decode body with
      | some cs => .ok [{ type := "text", text := String.mk cs }]
      | none => .error { msg := unicodeDecodeErrorMsg }
    | .error e => .error e
  else
    .error { msg := "Unsupported operation" }

/-- The `call_tool` handler: the dispatch body wrapped in the
`except Exception` handler that converts any exception into a single
`TextContent` whose text is `"Error: " ++ str(e)` (constructed without an
explicit `type` argument in the source). -/
def call_tool (client : ClientBehavior) (name : String) : List TextContent :=
  match call_tool_body client name with
  | .ok out => out
  | .error e => [{ text := "Error: " ++ e.msg }]

/-! ## Concurrency structure of the bucket fan-out in `list_resources`

The source creates `sem = asyncio.Semaphore(3)` and then runs
`async with sem: await asyncio.gather(*[process_bucket(b) for b in buckets])`.
The semaphore is acquired exactly once, by the parent coroutine, around the
whole gather; no `process_bucket` task acquires it. The cooperative
scheduler below records which tasks have issued their backend listing call
and not yet completed it ("in flight"). -/

/-- Capacity of the semaphore created in `list_resources`
(`asyncio.Semaphore(3)`). -/
def semaphoreCapacity : Nat := 3

/-- A scheduler event for the bucket fan-out: task `i` issues its
`list_objects` backend call and suspends, or that call completes. -/
inductive FanoutEvent where
  | start (i : Nat)
  | finish (i : Nat)
deriving Repr, DecidableEq

/-- Scheduler state of the fan-out: tasks whose backend listing call is in
flight, and tasks that have completed it. -/
structure FanoutState where
  inFlight : List Nat
  done : List Nat
deriving Repr, DecidableEq

/-- One scheduler step for `n` bucket tasks. A task may start whenever it
has not run yet: because `async with sem` wraps the entire gather, the
single parent acquisition (which always succeeds, `1 ≤ 3`) is the only use
of the semaphore, and an individual task start is not gated by it. -/
def fanoutStep (n : Nat) (s : FanoutState) : FanoutEvent → Option FanoutState
  | .start i =>
    if i < n ∧ ¬ s.inFlight.contains i ∧ ¬ s.done.contains i then
      some { s with inFlight := i :: s.inFlight }
    else none
  | .finish i =>
    if s.inFlight.contains i then
      some { inFlight := s.inFlight.erase i, done := i :: s.done }
    else none

/-- Run a schedule of fan-out events from a state; `none` if some event is
not enabled. -/
def runFanout (n : Nat) : FanoutState → List FanoutEvent → Option FanoutState
  | s, [] => some s
  | s, e :: es =>
    match fanoutStep n s e with
    | some s2 => runFanout n s2 es
    | none => none

/-- Spec-side restatement of the allow-list filtering contract, following
the specification's words: "`list_buckets()` returns exactly B ∩ L when L
is non-empty, else exactly B, preserving backend order". -/
def specAllowFilter (L : List String) (B : List ListedBucket) : List ListedBucket :=
  if L = [] then B else B.filter (fun b => decide (b.name ∈ L))

instance {ε α : Type} [DecidableEq ε] [DecidableEq α] : DecidableEq (Except ε α) := fun x y =>
  match x, y with
  | .ok a, .ok b =>
    if h : a = b then isTrue (h ▸ rfl) else isFalse (fun hh => h (Except.ok.inj hh))
  | .error a, .error b =>
    if h : a = b then isTrue (h ▸ rfl) else isFalse (fun hh => h (Except.error.inj hh))
  | .ok a, .error b => isFalse (fun hh => Except.noConfusion hh)
  | .error a, .ok b => isFalse (fun hh => Except.noConfusion hh)

/-! ## Helper lemmas -/

theorem isPrefixOf_self_append (l t : List Char) : l.isPrefixOf (l ++ t) = true := by
  induction l with
  | nil => simp [List.isPrefixOf]
  | cons a as ih => simpa [List.isPrefixOf] using ih

theorem pyStartsWith_tos (rest : String) :
    pyStartsWith ("tos://" ++ rest) "tos://" = true := by
  simpa [pyStartsWith, String.data_append] using
    isPrefixOf_self_append "tos://".data rest.data

theorem pyDrop_tos (rest : String) : pyDrop ("tos://" ++ rest) 6 = rest := by
  unfold pyDrop
  rw [String.data_append]
  show String.mk (("tos://".data ++ rest.data).drop "tos://".data.length) = rest
  rw [List.drop_left]

theorem splitOnceAux_none (l : List Char) (h : '/' ∉ l) : splitOnceAux l = none := by
  induction l with
  | nil => rfl
  | cons c rest ih =>
    have hc : ¬ c = '/' := fun hcc => h (hcc ▸ List.mem_cons_self c rest)
    have hr := ih (fun hm => h (List.mem_cons_of_mem c hm))
    simp [splitOnceAux, hc, hr]

theorem splitOnceAux_append (l₁ l₂ : List Char) (h : '/' ∉ l₁) :
    splitOnceAux (l₁ ++ '/' :: l₂) = some (l₁, l₂) := by
  induction l₁ with
  | nil => simp [splitOnceAux]
  | cons c rest ih =>
    have hc : ¬ c = '/' := fun hcc => h (hcc ▸ List.mem_cons_self c rest)
    have hr := ih (fun hm => h (List.mem_cons_of_mem c hm))
    simp [splitOnceAux, hc, hr]

theorem pySplitOnce_bucket_key (b k : String) (h : '/' ∉ b.data) :
    pySplitOnce (b ++ "/" ++ k) = some (b, k) := by
  unfold pySplitOnce
  have hd : (b ++ "/" ++ k).data = b.data ++ '/' :: k.data := by
    rw [String.data_append, String.data_append]
    have hslash : "/".data = ['/'] := rfl
    rw [hslash, List.append_assoc]
    rfl
  rw [hd, splitOnceAux_append b.data k.data h]

theorem pyEndsWith_iff (s ext : String) :
    pyEndsWith s ext = true ↔ ∃ p : String, s = p ++ ext := by
  unfold pyEndsWith
  rw [List.isSuffixOf_iff_suffix]
  constructor
  · rintro ⟨t, ht⟩
    exact ⟨String.mk t, congrArg String.mk ht.symm⟩
  · rintro ⟨p, rfl⟩
    exact ⟨p.data, (String.data_append p ext).symm⟩

theorem contains_eq_decide_mem (L : List String) (a : String) :
    L.contains a = decide (a ∈ L) := by
  simpa [List.contains] using List.elem_eq_mem a L

theorem gatherResources_ok (bo : String → Except TosServerError (List ListedObject))
    (B : List ListedBucket) (rs : List Resource) (h : gatherResources bo B = .ok rs) :
    ∀ b ∈ B, ∃ objs, bo b.name = .ok objs := by
  induction B generalizing rs with
  | nil => intro b hb; cases hb
  | cons b₀ rest ih =>
    intro b hb
    unfold gatherResources at h
    cases hpb : processBucket bo b₀ with
    | error e => rw [hpb] at h; cases h
    | ok rs₀ =>
      rw [hpb] at h
      cases hrest : gatherResources bo rest with
      | error e => rw [hrest] at h; cases h
      | ok more =>
        cases hb with
        | head =>
          unfold processBucket at hpb
          cases hob : bo b₀.name with
          | error e => rw [hob] at hpb; cases hpb
          | ok objs => exact ⟨objs, rfl⟩
        | tail _ hmem => exact ih more hrest b hmem

theorem list_buckets_mem_allowlist (L : List String) (hL : ¬ L = [])
    (B res : List ListedBucket) (h : TosResource.list_buckets L (.ok B) = .ok res) :
    ∀ b ∈ res, b.name ∈ L := by
  unfold TosResource.list_buckets at h
  have hne : L.isEmpty = false := by simpa [List.isEmpty_iff] using hL
  simp only [hne, Bool.false_eq_true, if_false, Except.ok.injEq] at h
  subst h
  intro b hb
  have hmem := (List.mem_filter.1 hb).2
  rw [contains_eq_decide_mem] at hmem
  exact of_decide_eq_true hmem

theorem gatherResources_uri_shape
    (bo : String → Except TosServerError (List ListedObject))
    (B : List ListedBucket) (rs : List Resource) (h : gatherResources bo B = .ok rs) :
    ∀ r ∈ rs, ∃ b ∈ B, ∃ key : String, r.uri = "tos://" ++ b.name ++ "/" ++ key := by
  induction B generalizing rs with
  | nil =>
    unfold gatherResources at h
    cases h
    intro r hr; cases hr
  | cons b₀ rest ih =>
    intro r hr
    unfold gatherResources at h
    cases hpb : processBucket bo b₀ with
    | error e => rw [hpb] at h; cases h
    | ok rs₀ =>
      rw [hpb] at h
      cases hrest : gatherResources bo rest with
      | error e => rw [hrest] at h; cases h
      | ok more =>
        rw [hrest] at h
        cases h
        rcases List.mem_append.1 hr with hr₀ | hrM
        · unfold processBucket at hpb
          cases hob : bo b₀.name with
          | error e => rw [hob] at hpb; cases hpb
          | ok objs =>
            rw [hob] at hpb
            cases hpb
            obtain ⟨o, _, rfl⟩ := List.mem_map.1 hr₀
            exact ⟨b₀, List.mem_cons_self b₀ rest, o.key, rfl⟩
        · obtain ⟨b, hbmem, key, hkey⟩ := ih more hrest r hrM
          exact ⟨b, List.mem_cons_of_mem b₀ hbmem, key, hkey⟩

/-! ## Claim theorems -/

/-- C3: for every allow-list `L` loaded at adapter construction and every
bucket sequence `B` returned by the backend's bucket-listing call,
`list_buckets()` returns exactly the buckets of `B` whose name is in `L`
when `L` is non-empty, and exactly `B` when `L` is empty, preserving the
order in which the backend returned them (the result is a sublist of
`B`). -/
theorem list_buckets_filtering (L : List String) (B : List ListedBucket) :
    TosResource.list_buckets L (.ok B) = .ok (specAllowFilter L B)
    ∧ (specAllowFilter L B).Sublist B := by
  constructor
  · unfold TosResource.list_buckets specAllowFilter
    by_cases hL : L = []
    · simp [hL]
    · have hne : L.isEmpty = false := by
        simpa [List.isEmpty_iff] using hL
      simp only [hne, Bool.false_eq_true, if_false, hL, if_neg hL, Except.ok.injEq]
      congr 1
      funext b
      rw [contains_eq_decide_mem]
  · unfold specAllowFilter
    by_cases hL : L = []
    · simp [hL]
    · simpa [hL] using List.filter_sublist B

/-- C4: `is_text_file key` is true iff the lowercased key ends with one of
the six suffixes `.txt`, `.log`, `.csv`, `.json`, `.xml`, `.md`; in
particular it is true on `"a.TXT"` and false on `"a.bin"` and
`"noext"`. -/
theorem is_text_file_characterization :
    (∀ key : String, is_text_file key = true ↔
      ∃ ext ∈ text_exts, ∃ p : String, pyLower key = p ++ ext)
    ∧ is_text_file "a.TXT" = true
    ∧ is_text_file "a.bin" = false
    ∧ is_text_file "noext" = false := by
  refine ⟨?_, by decide, by decide, by decide⟩
  intro key
  unfold is_text_file
  rw [List.any_eq_true]
  constructor
  · rintro ⟨ext, hmem, hend⟩
    exact ⟨ext, hmem, (pyEndsWith_iff _ _).1 hend⟩
  · rintro ⟨ext, hmem, hp⟩
    exact ⟨ext, hmem, (pyEndsWith_iff _ _).2 hp⟩

/-- C6: when the backend answers the object fetch with an error, a status
code of 404 makes `get_object` raise the distinguished not-found error
(the `ValueError` naming the missing object), and any other backend error
is re-raised as the storage-service error carrying the backend's message;
by exhaustiveness of the match, no other kind of error is raised on a
backend failure. -/
theorem get_object_error_classification (bucket key : String) (e : TosServerError) :
    (e.status_code = 404 →
      TosResource.get_object bucket key (.error e)
        = .error (.valueError ("Object " ++ key ++ " not found in " ++ bucket)))
    ∧ (¬ e.status_code = 404 →
      TosResource.get_object bucket key (.error e) = .error (.tosServerError e)) := by
  constructor <;> intro h <;> simp [TosResource.get_object, h]

/-- Witness for `get_object_error_classification` at concrete inputs. -/
theorem get_object_error_classification_witness :
    TosResource.get_object "b" "k" (.error { status_code := 404, message := "m" })
      = .error (.valueError ("Object " ++ "k" ++ " not found in " ++ "b"))
    ∧ TosResource.get_object "b" "k" (.error { status_code := 500, message := "m" })
      = .error (.tosServerError { status_code := 500, message := "m" }) :=
  ⟨(get_object_error_classification "b" "k" { status_code := 404, message := "m" }).1 rfl,
   (get_object_error_classification "b" "k" { status_code := 500, message := "m" }).2
      (by decide)⟩

/-- C8 (failing input): with 4 configured buckets whose backend listings
are all pending, the schedule that starts all four `process_bucket` tasks
is accepted by the fan-out semantics — the semaphore of capacity 3 is
acquired once around the whole gather, not per task — and reaches a state
with 4 per-bucket listing operations in flight, exceeding the cap of 3
that the claim (and the source's own "limit concurrency" comment)
asserts. -/
theorem fanout_exceeds_semaphore :
    runFanout 4 { inFlight := [], done := [] }
        [.start 0, .start 1, .start 2, .start 3]
      = some { inFlight := [3, 2, 1, 0], done := [] }
    ∧ semaphoreCapacity < 4 := by decide

/-- C5: for every URI that does not start with `"tos://"`, `read_resource`
fails with the invalid-URI error (`ValueError("Invalid TOS URI format")`)
and issues no call to the storage backend (the call trace is empty, for
every possible backend behaviour). -/
theorem read_resource_invalid_scheme
    (backend : String → String → Except TosServerError SdkGetObjectResponse)
    (uri : String) (h : pyStartsWith uri "tos://" = false) :
    read_resource backend uri = (.error (.valueError "Invalid TOS URI format"), []) := by
  unfold read_resource
  simp [h]

/-- Witness for `read_resource_invalid_scheme` at the spec's example
input. -/
theorem read_resource_invalid_scheme_witness :
    read_resource (fun _ _ => .error { status_code := 500, message := "m" }) "http://b/k"
      = (.error (.valueError "Invalid TOS URI format"), []) :=
  read_resource_invalid_scheme _ "http://b/k" (by decide)

/-- C10: for every URI `"tos://<rest>"` whose remainder holds no slash,
the 2-way unpacking of `path.split("/", 1)` raises `ValueError` before any
storage-backend call is made (empty call trace, for every backend
behaviour). -/
theorem read_resource_missing_key_split
    (backend : String → String → Except TosServerError SdkGetObjectResponse)
    (rest : String) (h : '/' ∉ rest.data) :
    read_resource backend ("tos://" ++ rest)
      = (.error (.valueError "not enough values to unpack (expected 2, got 1)"), []) := by
  unfold read_resource
  rw [pyStartsWith_tos rest]
  simp only [Bool.true_eq_false, if_false, pyDrop_tos rest]
  unfold pySplitOnce
  rw [splitOnceAux_none rest.data h]

/-- Witness for `read_resource_missing_key_split` at a bucket-only URI. -/
theorem read_resource_missing_key_split_witness :
    read_resource (fun _ _ => .error { status_code := 500, message := "m" })
        ("tos://" ++ "bucketonly")
      = (.error (.valueError "not enough values to unpack (expected 2, got 1)"), []) :=
  read_resource_missing_key_split _ "bucketonly" (by decide)

/-- C2 (counterexample): the claim says `read_resource` returns the plain
base64 string `"aGk="` for content `b"hi"` whether or not the key is
classified as text; but for the binary-classified key `"k.bin"` the source
returns `str(base64.b64encode(content))`, the Python textual form of the
bytes object, which differs from `"aGk="`. -/
theorem read_resource_binary_not_plain_base64 :
    (read_resource
        (fun _ _ => .ok { content_type := "application/octet-stream"
                          content := { data := [[104, 105]], items := [] } })
        "tos://b/k.bin").1
      = .ok (pyBytesRepr "aGk=")
    ∧ ¬ (read_resource
        (fun _ _ => .ok { content_type := "application/octet-stream"
                          content := { data := [[104, 105]], items := [] } })
        "tos://b/k.bin").1
      = .ok "aGk=" := by decide

/-- C2 (amended): for every object held by the backend at `(b, k)`,
`read_resource("tos://<b>/<k>")` returns the standard base64 encoding of
the content bytes as a plain string when `is_text_file k` is true, and the
Python `str()` rendering of the base64 bytes object (the base64 text
wrapped in `b'...'`) when `is_text_file k` is false; the two branches thus
return different strings on non-empty content. -/
theorem read_resource_base64_branches
    (b k ct : String) (chunks : List (List Nat)) (items : List (String × String))
    (hb : '/' ∉ b.data) :
    (is_text_file k = true →
      read_resource
          (fun _ _ => .ok { content_type := ct, content := { data := chunks, items := items } })
          ("tos://" ++ (b ++ "/" ++ k))
        = (.ok (b64String chunks.flatten), [(b, k)]))
    ∧ (is_text_file k = false →
      read_resource
          (fun _ _ => .ok { content_type := ct, content := { data := chunks, items := items } })
          ("tos://" ++ (b ++ "/" ++ k))
        = (.ok (pyBytesRepr (b64String chunks.flatten)), [(b, k)])) := by
  constructor <;> intro hk <;>
  · unfold read_resource
    rw [pyStartsWith_tos]
    simp only [Bool.true_eq_false, if_false, pyDrop_tos]
    rw [pySplitOnce_bucket_key b k hb]
    simp [TosResource.get_object, hk]

/-- Witness for `read_resource_base64_branches`: content `b"hi"` under a
text key gives `"aGk="`, under a binary key gives the `b'aGk='`
rendering. -/
theorem read_resource_base64_branches_witness :
    read_resource
        (fun _ _ => .ok { content_type := "t", content := { data := [[104, 105]], items := [] } })
        ("tos://" ++ ("b" ++ "/" ++ "k.txt"))
      = (.ok "aGk=", [("b", "k.txt")])
    ∧ read_resource
        (fun _ _ => .ok { content_type := "t", content := { data := [[104, 105]], items := [] } })
        ("tos://" ++ ("b" ++ "/" ++ "k.bin"))
      = (.ok (pyBytesRepr "aGk="), [("b", "k.bin")]) := by
  constructor
  · have h := (read_resource_base64_branches "b" "k.txt" "t" [[104, 105]] []
      (by decide)).1 (by decide)
    rw [h]; decide
  · have h := (read_resource_base64_branches "b" "k.bin" "t" [[104, 105]] []
      (by decide)).2 (by decide)
    rw [h]; decide

/-- C9: if the bucket enumeration fails, `list_resources` propagates that
error; a successful result implies every selected bucket's object listing
succeeded; and if any single selected bucket's object listing fails, the
whole operation fails with an error — the caller never receives a partial
resource list. -/
theorem list_resources_all_or_nothing (L : List String)
    (bb : Except TosServerError (List ListedBucket))
    (bo : String → Except TosServerError (List ListedObject)) :
    (∀ e, bb = .error e → list_resources L bb bo = .error e)
    ∧ (∀ rs, list_resources L bb bo = .ok rs →
        ∃ B, TosResource.list_buckets L bb = .ok B
          ∧ ∀ b ∈ B, ∃ objs, bo b.name = .ok objs)
    ∧ (∀ B b e, TosResource.list_buckets L bb = .ok B → b ∈ B →
        bo b.name = .error e →
        ∃ err, list_resources L bb bo = .error err) := by
  have hmain : ∀ rs, list_resources L bb bo = .ok rs →
      ∃ B, TosResource.list_buckets L bb = .ok B
        ∧ ∀ b ∈ B, ∃ objs, bo b.name = .ok objs := by
    intro rs h
    unfold list_resources at h
    cases hlb : TosResource.list_buckets L bb with
    | error e => rw [hlb] at h; cases h
    | ok B => rw [hlb] at h; exact ⟨B, rfl, gatherResources_ok bo B rs h⟩
  refine ⟨?_, hmain, ?_⟩
  · rintro e rfl
    rfl
  · intro B b e hlb hmem hbo
    cases hres : list_resources L bb bo with
    | error err => exact ⟨err, rfl⟩
    | ok rs =>
      obtain ⟨B2, hlb2, hall⟩ := hmain rs hres
      rw [hlb] at hlb2
      cases hlb2
      obtain ⟨objs, hobjs⟩ := hall b hmem
      rw [hbo] at hobjs
      cases hobjs

/-- Witness for `list_resources_all_or_nothing`: a failed bucket enumeration
propagates; a bucket whose listing fails makes the whole call fail. -/
theorem list_resources_all_or_nothing_witness :
    list_resources ["a"] (.error { status_code := 500, message := "x" }) (fun _ => .ok [])
      = .error { status_code := 500, message := "x" }
    ∧ ∃ err, list_resources [] (.ok [{ name := "a" }])
        (fun _ => .error { status_code := 503, message := "y" }) = .error err := by
  constructor
  · exact (list_resources_all_or_nothing ["a"]
      (.error { status_code := 500, message := "x" }) (fun _ => .ok [])).1
      { status_code := 500, message := "x" } rfl
  · exact (list_resources_all_or_nothing []
      (.ok [{ name := "a" }]) (fun _ => .error { status_code := 503, message := "y" })).2.2
      [{ name := "a" }] { name := "a" } { status_code := 503, message := "y" }
      (by decide) (by decide) rfl

/-- C7: `call_tool` never propagates an exception: it always returns a
single text payload; any exception raised inside the dispatch body is
converted to a payload whose text is `"Error: "` followed by the
exception's message; on backend success of `GetObject` with a UTF-8 body
it returns the decoded body; and any name outside the three supported
tools yields the `"Error: Unsupported operation"` payload. -/
theorem call_tool_contract (client : ClientBehavior) (name : String) :
    (∃ tc : TextContent, call_tool client name = [tc])
    ∧ (∀ e, call_tool_body client name = .error e →
        call_tool client name = [{ type := "text", text := "Error: " ++ e.msg }])
    ∧ (∀ body cs, name = "GetObject" → client.getObjectBody = .ok body →
        utf8Decode body = some cs →
        call_tool client name = [{ type := "text", text := String.mk cs }])
    ∧ (¬ name = "ListBuckets" → ¬ name = "ListObjectsV2" → ¬ name = "GetObject" →
        call_tool client name = [{ type := "text", text := "Error: Unsupported operation" }]) := by
  refine ⟨?_, ?_, ?_, ?_⟩
  · unfold call_tool
    cases hb : call_tool_body client name with
    | error e => exact ⟨_, rfl⟩
    | ok out =>
      unfold call_tool_body at hb
      by_cases h1 : name = "ListBuckets"
      · rw [if_pos h1] at hb
        cases hc : client.listBucketsResult with
        | ok r => rw [hc] at hb; cases hb; exact ⟨_, rfl⟩
        | error e => rw [hc] at hb; cases hb
      · rw [if_neg h1] at hb
        by_cases h2 : name = "ListObjectsV2"
        · rw [if_pos h2] at hb
          cases hc : client.listObjectsRepr with
          | ok r => rw [hc] at hb; cases hb; exact ⟨_, rfl⟩
          | error e => rw [hc] at hb; cases hb
        · rw [if_neg h2] at hb
          by_cases h3 : name = "GetObject"
          · rw [if_pos h3] at hb
            cases hc : client.getObjectBody with
            | ok body =>
              rw [hc] at hb
              dsimp only at hb
              cases hd : utf8Decode body with
              | some cs => rw [hd] at hb; cases hb; exact ⟨_, rfl⟩
              | none => rw [hd] at hb; cases hb
            | error e => rw [hc] at hb; cases hb
          · rw [if_neg h3] at hb
            cases hb
  · intro e he
    unfold call_tool
    rw [he]
  · rintro body cs rfl hbody hdec
    simp [call_tool, call_tool_body, hbody, hdec]
  · intro h1 h2 h3
    simp [call_tool, call_tool_body, h1, h2, h3]

/-- Witness for `call_tool_contract`: a successful `GetObject` on body
`b"hi"` returns the payload `"hi"`, and an unknown tool name returns the
unsupported-operation error payload. -/
theorem call_tool_contract_witness :
    call_tool { listBucketsResult := .error { msg := "x" }
                listObjectsRepr := .error { msg := "x" }
                getObjectBody := .ok [104, 105] } "GetObject"
      = [{ type := "text", text := String.mk ['h', 'i'] }]
    ∧ call_tool { listBucketsResult := .error { msg := "x" }
                  listObjectsRepr := .error { msg := "x" }
                  getObjectBody := .error { msg := "boom" } } "Nonexistent"
      = [{ type := "text", text := "Error: Unsupported operation" }] := by
  constructor
  · exact (call_tool_contract
      { listBucketsResult := .error { msg := "x" }
        listObjectsRepr := .error { msg := "x" }
        getObjectBody := .ok [104, 105] } "GetObject").2.2.1
      [104, 105] ['h', 'i'] rfl rfl (by decide)
  · exact (call_tool_contract
      { listBucketsResult := .error { msg := "x" }
        listObjectsRepr := .error { msg := "x" }
        getObjectBody := .error { msg := "boom" } } "Nonexistent").2.2.2
      (by decide) (by decide) (by decide)

/-- C1 (counterexample): with the non-empty allow-list `["a"]` configured
and the backend reporting buckets `"a"` and `"b"`, the adapter's
`list_buckets` filters down to `"a"`, yet `call_tool "ListBuckets"` —
which queries the raw client directly, bypassing the adapter — returns the
textual bucket-name list naming `"b"`, a bucket outside the
allow-list. -/
theorem call_tool_listbuckets_ignores_allowlist :
    TosResource.list_buckets ["a"] (.ok [{ name := "a" }, { name := "b" }])
      = .ok [{ name := "a" }]
    ∧ call_tool { listBucketsResult := .ok [{ name := "a" }, { name := "b" }]
                  listObjectsRepr := .error { msg := "x" }
                  getObjectBody := .error { msg := "x" } } "ListBuckets"
      = [{ type := "text", text := pyStrList ["a", "b"] }]
    ∧ ¬ ("b" ∈ (["a"] : List String)) := by decide

/-- C1 (amended): for every configured non-empty allow-list, the adapter's
`list_buckets` returns only buckets whose name appears in it, and every
resource `list_resources` returns addresses a bucket whose name appears in
it; but `call_tool` with name `"ListBuckets"` bypasses the allow-list and
returns the names of all buckets the backend reports. -/
theorem allowlist_invariant_amended (L : List String) (hL : ¬ L = []) :
    (∀ (B res : List ListedBucket),
        TosResource.list_buckets L (.ok B) = .ok res → ∀ b ∈ res, b.name ∈ L)
    ∧ (∀ bb bo rs, list_resources L bb bo = .ok rs →
        ∀ r ∈ rs, ∃ nm key : String, nm ∈ L ∧ r.uri = "tos://" ++ nm ++ "/" ++ key)
    ∧ (∀ (client : ClientBehavior) (bs : List ListedBucket),
        client.listBucketsResult = .ok bs →
        call_tool client "ListBuckets"
          = [{ type := "text", text := pyStrList (bs.map ListedBucket.name) }]) := by
  refine ⟨fun B res h => list_buckets_mem_allowlist L hL B res h, ?_, ?_⟩
  · intro bb bo rs hres r hr
    unfold list_resources at hres
    cases hlb : TosResource.list_buckets L bb with
    | error e => rw [hlb] at hres; cases hres
    | ok B =>
      rw [hlb] at hres
      obtain ⟨b, hbB, key, hkey⟩ := gatherResources_uri_shape bo B rs hres r hr
      cases bb with
      | error e => simp [TosResource.list_buckets] at hlb
      | ok backendB =>
        have hname := list_buckets_mem_allowlist L hL backendB B hlb b hbB
        exact ⟨b.name, key, hname, by rw [hkey, String.append_assoc]⟩
  · intro client bs hc
    simp [call_tool, call_tool_body, hc]

/-- Witness for `allowlist_invariant_amended`: filtering the backend
buckets `a, b` against the allow-list `["a"]` yields buckets all of whose
names are allow-listed. -/
theorem allowlist_invariant_amended_witness :
    ({ name := "a" } : ListedBucket).name ∈ (["a"] : List String) :=
  (allowlist_invariant_amended ["a"] (by decide)).1
    [{ name := "a" }, { name := "b" }] [{ name := "a" }] (by decide)
    { name := "a" } (by decide)

end TosMcp
